import Mathlib

/-!
Shallow embedding of the module/registry core of the bar-rs status bar:
the bluetooth module (src/modules/bluetooth.rs) and the module/action
contracts (src/modules/mod.rs). Rust `HashSet` values are modelled as
duplicate-free lists in insertion order; fallible or panicking operations
return `Option` or `Except`; the asynchronous device bus is modelled as an
oracle recording the result every query would return.
-/

namespace BarRs

/-! ### Nerd-font glyphs appearing in bluetooth.rs -/

/-- Glyph for the class "audio-card" in bluetooth.rs. -/
def glyph_audio_card : String := "󰓃"

/-- Glyph for the class "audio-input-microphone" in bluetooth.rs. -/
def glyph_microphone : String := ""

/-- Glyph for the classes "audio-headphones" and "audio-headset" in bluetooth.rs. -/
def glyph_headphones : String := "󰋋"

/-- Glyph for the class "battery" in bluetooth.rs. -/
def glyph_battery : String := "󰂀"

/-- Glyph for the class "camera-photo" in bluetooth.rs. -/
def glyph_camera : String := "󰻛"

/-- Glyph for the class "computer" in bluetooth.rs. -/
def glyph_computer : String := ""

/-- Glyph for the class "input-keyboard" in bluetooth.rs. -/
def glyph_keyboard : String := "󰌌"

/-- Glyph for the class "input-mouse" in bluetooth.rs. -/
def glyph_mouse : String := "󰍽"

/-- Glyph for the class "input-gaming" in bluetooth.rs. -/
def glyph_gaming : String := "󰊴"

/-- Glyph for the class "phone" in bluetooth.rs. -/
def glyph_phone : String := "󰏲"

/-- Glyph for the class "None" (absent icon class) in bluetooth.rs. -/
def glyph_none_class : String := ""

/-- Glyph for the wildcard arm of the class table in bluetooth.rs. -/
def glyph_unknown_class : String := ""

/-- Glyph for the icons[true] in BluetoothMod::default in bluetooth.rs. -/
def glyph_bt_on : String := ""

/-- Glyph for the icons[false] in BluetoothMod::default in bluetooth.rs. -/
def glyph_bt_off : String := ""

/-! ### Bluetooth data model (src/modules/bluetooth.rs) -/

/-- `Device`: `{ icon: &'static str, name: String }` with
`derive(PartialEq, Eq, Hash)` — identity is structural equality of the
icon and name. -/
structure Device where
  icon : String
  name : String
deriving DecidableEq, Repr

/-- `Controller`: one adapter snapshot,
`{ is_powered: bool, connected_devices: HashSet<Device> }`. The hash set
is modelled as a duplicate-free list in insertion order. -/
structure Controller where
  is_powered : Bool
  connected_devices : List Device
deriving DecidableEq, Repr

/-- `HashSet::<Device>::insert`: append `d` unless an equal element is
already present. -/
def hs_insert (s : List Device) (d : Device) : List Device :=
  if d ∈ s then s else s ++ [d]

/-- `HashSet::extend`: insert every element of `ds` in order. -/
def hs_extend (s : List Device) (ds : List Device) : List Device :=
  ds.foldl hs_insert s

/-- `BluetoothMod`: controllers, the two config-override payloads and the
power-icon map. The override types live in `config/*.rs`, outside the two
embedded files, so they are kept as type parameters; no operation of this
module inspects them. -/
structure BluetoothMod (C P : Type) where
  controllers : List Controller
  cfg_override : C
  popup_cfg_override : P
  icons : List (Bool × String)

/-- `BTreeMap::<bool, &str>::get`. -/
def map_get (m : List (Bool × String)) (k : Bool) : Option String :=
  match m with
  | [] => none
  | (k', v) :: rest => if k' = k then some v else map_get rest k

/-- The icon map built by `BluetoothMod::default`:
`[(true, \u{f293}), (false, \u{f294})]`. -/
def default_icons : List (Bool × String) :=
  [(true, glyph_bt_on), (false, glyph_bt_off)]

/-- `BluetoothMod::default`, parametrised by the default override payloads
(whose construction lives in `config/*.rs`). -/
def BluetoothMod.mk_default {C P : Type} (c0 : C) (p0 : P) : BluetoothMod C P :=
  { controllers := []
    cfg_override := c0
    popup_cfg_override := p0
    icons := default_icons }

namespace BluetoothMod

/-- `BluetoothMod::icon`: look the icon up under "any controller is
powered". The `expect` panic is modelled as `none`. -/
def icon {C P : Type} (m : BluetoothMod C P) : Option String :=
  map_get m.icons (m.controllers.any Controller.is_powered)

/-- `BluetoothMod::connected_devices`: fold the controllers' device sets
into one deduplicated set. -/
def connected_devices {C P : Type} (m : BluetoothMod C P) : List Device :=
  m.controllers.foldl (fun acc c => hs_extend acc c.connected_devices) []

/-- The `bt_text` string computed by `BluetoothMod::view`; the
button/container wrappers around it are pure styling and omitted. `none`
models a panic inside the computation. -/
def view_text {C P : Type} (m : BluetoothMod C P) : Option String :=
  match (connected_devices m).length with
  | 0 => m.icon
  | 1 => (connected_devices m).head?.map (fun d => d.icon ++ " " ++ d.name)
  | _ => some ((connected_devices m).foldl (fun acc d => acc ++ d.icon) "")

/-- The union of all controllers' connected-device sets, as a `Finset` —
the specification-level notion the rendering policy is stated against. -/
def union_devices {C P : Type} (m : BluetoothMod C P) : Finset Device :=
  m.controllers.foldl (fun s c => s ∪ c.connected_devices.toFinset) ∅

/-- The mutation each subscription `Message` performs on the module:
`m.controllers = controllers`. -/
def bt_update {C P : Type} (cs : List Controller) (m : BluetoothMod C P) :
    BluetoothMod C P :=
  { m with controllers := cs }

/-- `BluetoothMod::read_config`: `cfg_override = config.into()` and
`popup_cfg_override.update(popup_config)`; the two conversions live in
`config/*.rs` and are passed as parameters. -/
def read_config {C P : Type} (to_cfg : List (String × Option String) → C)
    (upd_popup : P → List (String × Option String) → P)
    (m : BluetoothMod C P)
    (config popup_config : List (String × Option String)) : BluetoothMod C P :=
  { m with
    cfg_override := to_cfg config
    popup_cfg_override := upd_popup m.popup_cfg_override popup_config }

/-- States reachable from `BluetoothMod::default` through the module's own
operations: `read_config` (any conversion behaviour) and controller
replacement by subscription Messages. -/
inductive Reachable {C P : Type} (c0 : C) (p0 : P) : BluetoothMod C P → Prop where
  | init : Reachable c0 p0 (BluetoothMod.mk_default c0 p0)
  | cfg : ∀ {m} to_cfg upd_popup config popup_config, Reachable c0 p0 m →
      Reachable c0 p0 (read_config to_cfg upd_popup m config popup_config)
  | upd : ∀ {m} cs, Reachable c0 p0 m → Reachable c0 p0 (bt_update cs m)

end BluetoothMod

/-! ### The bluer device-bus oracle and the polling code -/

/-- Opaque `io::Error` payload. -/
structure IoErr where
  code : Nat
deriving DecidableEq, Repr

/-- One `bluer::Device` proxy: the results its awaited queries would
return during this poll cycle. -/
structure DeviceHandle where
  icon : Except IoErr (Option String)
  is_connected : Except IoErr Bool
  device_alias : Except IoErr String

/-- One `bluer::Adapter`: the results of its awaited queries during this
poll cycle. Bus addresses are abstracted to `Nat`. -/
structure Adapter where
  is_powered : Except IoErr Bool
  device_addresses : Except IoErr (List Nat)
  device : Nat → Except IoErr DeviceHandle

/-- One `bluer::Session` as observed during a single poll cycle. -/
structure Session where
  adapter_names : Except IoErr (List String)
  adapter : String → Except IoErr Adapter

/-- The class-of-device → glyph table in `get_all_devices`. The Rust
`match` on the string is a sequential chain of equality tests. -/
def icon_for_class (c : String) : String :=
  if c = "audio-card" then glyph_audio_card
  else if c = "audio-input-microphone" then glyph_microphone
  else if c = "audio-headphones" then glyph_headphones
  else if c = "audio-headset" then glyph_headphones
  else if c = "battery" then glyph_battery
  else if c = "camera-photo" then glyph_camera
  else if c = "computer" then glyph_computer
  else if c = "input-keyboard" then glyph_keyboard
  else if c = "input-mouse" then glyph_mouse
  else if c = "input-gaming" then glyph_gaming
  else if c = "phone" then glyph_phone
  else if c = "None" then glyph_none_class
  else glyph_unknown_class

/-- `device.icon().await?.unwrap_or("None".to_string())` fed through the
class table. -/
def classify_icon (o : Option String) : String :=
  icon_for_class (o.getD "None")

/-- The device loop of `get_all_devices`, carrying the accumulated set.
Every `?` propagates the error; `alias` is queried only for connected
devices, after the icon class. -/
def process_devices (a : Adapter) : List Nat → List Device → Except IoErr (List Device)
  | [], acc => .ok acc
  | addr :: rest, acc =>
    match a.device addr with
    | .error e => .error e
    | .ok d =>
      match d.icon with
      | .error e => .error e
      | .ok ic =>
        match d.is_connected with
        | .error e => .error e
        | .ok false => process_devices a rest acc
        | .ok true =>
          match d.device_alias with
          | .error e => .error e
          | .ok nm => process_devices a rest (hs_insert acc ⟨classify_icon ic, nm⟩)

/-- `get_all_devices`. -/
def get_all_devices (a : Adapter) : Except IoErr (List Device) :=
  match a.device_addresses with
  | .error e => .error e
  | .ok addrs => process_devices a addrs []

/-- The adapter loop of `get_controllers`: a failed `session.adapter(name)`
handle acquisition is skipped (`if let Ok(adapter)`), while every awaited
query error propagates via `?`. -/
def process_adapters (s : Session) : List String → List Controller → Except IoErr (List Controller)
  | [], acc => .ok acc
  | n :: rest, acc =>
    match s.adapter n with
    | .error _ => process_adapters s rest acc
    | .ok a =>
      match a.is_powered with
      | .error e => .error e
      | .ok p =>
        match get_all_devices a with
        | .error e => .error e
        | .ok cd => process_adapters s rest (acc ++ [⟨p, cd⟩])

/-- `get_controllers`. -/
def get_controllers (s : Session) : Except IoErr (List Controller) :=
  match s.adapter_names with
  | .error e => .error e
  | .ok names => process_adapters s names []

/-- The polling loop of `BluetoothMod::subscription`, observed for `fuel`
cycles; `sess n` is the bus state at cycle `n`. Each cycle polls
`get_controllers` and `unwrap`s the result: an error aborts the task
(recorded as `some e`), a success emits the snapshot carried by the update
Message and sleeps into the next cycle. -/
def poll_loop (sess : Nat → Session) : Nat → Nat → List (List Controller) × Option IoErr
  | _, 0 => ([], none)
  | start, fuel + 1 =>
    match get_controllers (sess start) with
    | .error e => ([], some e)
    | .ok cs =>
      let r := poll_loop sess (start + 1) fuel
      (cs :: r.1, r.2)

/-- The `stream::channel` body of `BluetoothMod::subscription`:
`if let Ok(session) = bluer::Session::new().await` — on failure the task
ends silently, on success it enters the polling loop. -/
def subscription_run (est : Except IoErr (Nat → Session)) (fuel : Nat) :
    List (List Controller) × Option IoErr :=
  match est with
  | .error _ => ([], none)
  | .ok sess => poll_loop sess 0 fuel

/-- A poll cycle whose `unwrap` does not fire. -/
def cycle_ok (s : Session) : Prop :=
  ∃ cs, get_controllers s = .ok cs

/-- An adapter whose handle acquisition and awaited queries all succeed. -/
def adapter_ok (s : Session) (n : String) : Prop :=
  ∃ a, s.adapter n = .ok a ∧ (∃ b, a.is_powered = .ok b) ∧
    ∃ cs, get_all_devices a = .ok cs

/-- The first awaited query performed on adapter `a` fails with `e`. -/
def first_query_fails (a : Adapter) (e : IoErr) : Prop :=
  a.is_powered = .error e ∨
    (∃ b, a.is_powered = .ok b ∧ get_all_devices a = .error e)

/-- Adapter `a` reports, at bus address `addr`, a connected device whose
classified icon and alias form `d`. -/
def reported (a : Adapter) (addr : Nat) (d : Device) : Prop :=
  ∃ dh ic nm, a.device addr = .ok dh ∧ dh.icon = .ok ic ∧
    dh.is_connected = .ok true ∧ dh.device_alias = .ok nm ∧ d = ⟨classify_icon ic, nm⟩

/-! ### Registry (modelled from the spec) -/

/-- Modelled from the spec: `Registry` and its typed accessors live in
`registry.rs`, which is not part of the embedded slice (only callers are).
Per §4.4 the registry stores type-erased modules keyed by type identity;
a concrete type is a tag `t : Nat` and `Val t` its module state. -/
structure Registry (Val : Nat → Type) where
  modules : List ((t : Nat) × Val t)

/-- Modelled from the spec: the capability container's downcast — walk the
map for an entry keyed by the requested type tag and recover its typed
content; `none` when the type was never registered. -/
def lookup_typed {Val : Nat → Type} (t : Nat) :
    List ((s : Nat) × Val s) → Option (Val t)
  | [] => none
  | entry :: rest => if h : entry.1 = t then some (h ▸ entry.2) else lookup_typed t rest

/-- Modelled from the spec: `Registry::get_module_mut::<T>()` (§4.4). -/
def Registry.get_module_mut {Val : Nat → Type} (reg : Registry Val) (t : Nat) :
    Option (Val t) :=
  lookup_typed t reg.modules

/-! ### Module and action contracts (src/modules/mod.rs) -/

/-- `iced::mouse::Button`. -/
inductive MouseButton where
  | left
  | right
  | middle
  | back
  | forward
  | other (code : Nat)
deriving DecidableEq, Repr

/-- `iced::mouse::Event`; payloads of the non-button events are opaque. -/
inductive MouseEvent where
  | cursorEntered
  | cursorLeft
  | cursorMoved (position : Nat)
  | buttonPressed (b : MouseButton)
  | buttonReleased (b : MouseButton)
  | wheelScrolled (delta : Nat)
deriving DecidableEq, Repr

/-- `iced::Event`; keyboard/window/touch payloads are opaque. -/
inductive Event where
  | mouse (e : MouseEvent)
  | keyboard (payload : Nat)
  | window (payload : Nat)
  | touch (payload : Nat)
deriving DecidableEq, Repr

/-- `Action`: `CommandAction(String)` is the one concrete action defined in
mod.rs. -/
inductive Action where
  | commandAction (cmd : String)
deriving DecidableEq, Repr

/-- `OnClickAction`: the three optional per-button actions. -/
structure OnClickAction where
  left : Option Action
  center : Option Action
  right : Option Action
deriving DecidableEq, Repr

/-- `OnClickAction::event`: map a released left/middle/right mouse button
to the stored slot; anything else to `None`. -/
def OnClickAction.event (a : OnClickAction) (e : Event) : Option Action :=
  match e with
  | .mouse (.buttonReleased .left) => a.left
  | .mouse (.buttonReleased .middle) => a.center
  | .mouse (.buttonReleased .right) => a.right
  | _ => none

/-- Render-tree shape, as far as the embedded code constructs it. -/
inductive Element where
  | text (s : String)
  | container (child : Element)
  | button (child : Element)
deriving DecidableEq, Repr

/-- The `PopupConfig` surface the module reads (defined in
`config/popup_config.rs`, outside the embedded slice). -/
structure PopupConfig where
  width : Nat
  height : Nat
deriving DecidableEq, Repr

/-- Opaque `handlebars::Handlebars` template registry. -/
structure Handlebars where
  templates : List (String × String)

/-- The default `Module::popup_view` body from mod.rs:
`"Missing implementation".into()`. -/
def popup_view_default (config : PopupConfig) (template : Handlebars) : Element :=
  Element.text "Missing implementation"

/-! ### Concrete instances evaluated by the witnesses -/

/-- A concrete connected device. -/
def device_w : Device :=
  ⟨glyph_headphones, "Headset"⟩

/-- A concrete module state with one powered controller and one device. -/
def mod_w : BluetoothMod Unit Unit :=
  { controllers := [⟨true, [device_w]⟩]
    cfg_override := ()
    popup_cfg_override := ()
    icons := default_icons }

/-- A connected phone handle, answered identically at two bus addresses. -/
def handle_w : DeviceHandle :=
  { icon := .ok (some "phone")
    is_connected := .ok true
    device_alias := .ok "Pixel" }

/-- An adapter reporting the same phone at the two addresses 10 and 11. -/
def adapter_w : Adapter :=
  { is_powered := .ok true
    device_addresses := .ok [10, 11]
    device := fun _ => .ok handle_w }

/-- The device set `adapter_w` yields. -/
def dev_list_w : List Device :=
  [⟨glyph_phone, "Pixel"⟩]

/-- An adapter whose first awaited query (`is_powered`) fails. -/
def adapter_fail_w : Adapter :=
  { is_powered := .error ⟨7⟩
    device_addresses := .ok []
    device := fun _ => .error ⟨0⟩ }

/-- A session holding only the failing adapter. -/
def session_fail_w : Session :=
  { adapter_names := .ok ["hci0"]
    adapter := fun _ => .ok adapter_fail_w }

/-- A session holding only the two-address adapter; polling it succeeds. -/
def session_ok_w : Session :=
  { adapter_names := .ok ["hci0"]
    adapter := fun _ => .ok adapter_w }

/-- The controller snapshot polled from `session_ok_w`. -/
def controllers_ok_w : List Controller :=
  [⟨true, dev_list_w⟩]

/-- A second adapter reporting the same phone at address 20. -/
def adapter_w2 : Adapter :=
  { is_powered := .ok false
    device_addresses := .ok [20]
    device := fun _ => .ok handle_w }

/-- A session with two adapters that both report the same phone. -/
def session_two_w : Session :=
  { adapter_names := .ok ["hci0", "hci1"]
    adapter := fun n => if n = "hci0" then .ok adapter_w else .ok adapter_w2 }

/-- The controller snapshot polled from `session_two_w`. -/
def controllers_two_w : List Controller :=
  [⟨true, dev_list_w⟩, ⟨false, dev_list_w⟩]

/-- A concrete action and click configuration. -/
def act_w : Action :=
  .commandAction "notify-send bluetooth"

/-- A click configuration with only the left slot set. -/
def on_click_w : OnClickAction :=
  ⟨some act_w, none, none⟩

/-! ### Hash-set and device-union lemmas -/

theorem mem_hs_insert (s : List Device) (d x : Device) :
    x ∈ hs_insert s d ↔ x ∈ s ∨ x = d := by
  unfold hs_insert
  by_cases h : d ∈ s
  · rw [if_pos h]
    exact ⟨Or.inl, fun hx => hx.elim id (fun hxd => hxd ▸ h)⟩
  · rw [if_neg h, List.mem_append, List.mem_singleton]

theorem nodup_hs_insert (s : List Device) (d : Device) (h : s.Nodup) :
    (hs_insert s d).Nodup := by
  unfold hs_insert
  by_cases hd : d ∈ s
  · rwa [if_pos hd]
  · rw [if_neg hd, List.nodup_append]
    refine ⟨h, List.nodup_singleton d, ?_⟩
    intro x hx hmem
    rw [List.mem_singleton] at hmem
    exact hd (hmem ▸ hx)

theorem hs_extend_cons (s : List Device) (d : Device) (rest : List Device) :
    hs_extend s (d :: rest) = hs_extend (hs_insert s d) rest := rfl

theorem mem_hs_extend (ds : List Device) : ∀ (s : List Device) (x : Device),
    x ∈ hs_extend s ds ↔ x ∈ s ∨ x ∈ ds := by
  induction ds with
  | nil => intro s x; simp [hs_extend]
  | cons d rest ih =>
    intro s x
    rw [hs_extend_cons, ih, mem_hs_insert]
    simp only [List.mem_cons]
    constructor
    · rintro ((hx | hx) | hx)
      · exact Or.inl hx
      · exact Or.inr (Or.inl hx)
      · exact Or.inr (Or.inr hx)
    · rintro (hx | (hx | hx))
      · exact Or.inl (Or.inl hx)
      · exact Or.inl (Or.inr hx)
      · exact Or.inr hx

theorem nodup_hs_extend (ds : List Device) : ∀ (s : List Device),
    s.Nodup → (hs_extend s ds).Nodup := by
  induction ds with
  | nil => intro s h; exact h
  | cons d rest ih =>
    intro s h
    rw [hs_extend_cons]
    exact ih _ (nodup_hs_insert s d h)

theorem mem_controllers_foldl (cs : List Controller) : ∀ (acc : List Device) (x : Device),
    x ∈ cs.foldl (fun a c => hs_extend a c.connected_devices) acc ↔
      x ∈ acc ∨ ∃ c ∈ cs, x ∈ c.connected_devices := by
  induction cs with
  | nil => intro acc x; simp
  | cons c rest ih =>
    intro acc x
    rw [List.foldl_cons, ih, mem_hs_extend]
    simp only [List.mem_cons]
    constructor
    · rintro ((hx | hx) | ⟨c', hc', hx⟩)
      · exact Or.inl hx
      · exact Or.inr ⟨c, Or.inl rfl, hx⟩
      · exact Or.inr ⟨c', Or.inr hc', hx⟩
    · rintro (hx | ⟨c', (rfl | hc'), hx⟩)
      · exact Or.inl (Or.inl hx)
      · exact Or.inl (Or.inr hx)
      · exact Or.inr ⟨c', hc', hx⟩

theorem nodup_controllers_foldl (cs : List Controller) : ∀ (acc : List Device),
    acc.Nodup → (cs.foldl (fun a c => hs_extend a c.connected_devices) acc).Nodup := by
  induction cs with
  | nil => intro acc h; exact h
  | cons c rest ih =>
    intro acc h
    rw [List.foldl_cons]
    exact ih _ (nodup_hs_extend _ _ h)

theorem mem_connected_devices {C P : Type} (m : BluetoothMod C P) (x : Device) :
    x ∈ m.connected_devices ↔ ∃ c ∈ m.controllers, x ∈ c.connected_devices := by
  unfold BluetoothMod.connected_devices
  rw [mem_controllers_foldl]
  simp

theorem nodup_connected_devices {C P : Type} (m : BluetoothMod C P) :
    m.connected_devices.Nodup :=
  nodup_controllers_foldl _ _ List.nodup_nil

theorem mem_union_foldl (cs : List Controller) : ∀ (s : Finset Device) (x : Device),
    x ∈ cs.foldl (fun s c => s ∪ c.connected_devices.toFinset) s ↔
      x ∈ s ∨ ∃ c ∈ cs, x ∈ c.connected_devices := by
  induction cs with
  | nil => intro s x; simp
  | cons c rest ih =>
    intro s x
    rw [List.foldl_cons, ih]
    simp only [Finset.mem_union, List.mem_toFinset, List.mem_cons]
    constructor
    · rintro ((hx | hx) | ⟨c', hc', hx⟩)
      · exact Or.inl hx
      · exact Or.inr ⟨c, Or.inl rfl, hx⟩
      · exact Or.inr ⟨c', Or.inr hc', hx⟩
    · rintro (hx | ⟨c', (rfl | hc'), hx⟩)
      · exact Or.inl (Or.inl hx)
      · exact Or.inl (Or.inr hx)
      · exact Or.inr ⟨c', hc', hx⟩

theorem mem_union_devices {C P : Type} (m : BluetoothMod C P) (x : Device) :
    x ∈ m.union_devices ↔ ∃ c ∈ m.controllers, x ∈ c.connected_devices := by
  unfold BluetoothMod.union_devices
  rw [mem_union_foldl]
  simp

theorem toFinset_connected_devices {C P : Type} (m : BluetoothMod C P) :
    m.connected_devices.toFinset = m.union_devices := by
  ext x
  rw [List.mem_toFinset, mem_connected_devices, mem_union_devices]

theorem length_connected_devices {C P : Type} (m : BluetoothMod C P) :
    m.connected_devices.length = m.union_devices.card := by
  rw [← toFinset_connected_devices m]
  exact (List.toFinset_card_of_nodup (nodup_connected_devices m)).symm

/-! ### Claim theorems -/

/-- Claim C1: the text rendered by `BluetoothMod::view` is selected by the
number of connected devices in the union of all controllers' device sets —
empty union: the power icon chosen by whether any controller is powered;
exactly one device: its icon, a space and its name; two or more devices: a
concatenation of the devices' icons with no names. -/
theorem view_text_selected_by_connected_count {C P : Type} (m : BluetoothMod C P)
    (ic : String) (hic : m.icon = some ic) :
    (m.union_devices = ∅ → m.view_text = some ic) ∧
    (∀ d : Device, m.union_devices = {d} →
      m.view_text = some (d.icon ++ " " ++ d.name)) ∧
    (2 ≤ m.union_devices.card →
      ∃ l : List Device, l.Nodup ∧ l.toFinset = m.union_devices ∧
        m.view_text = some (l.foldl (fun acc d => acc ++ d.icon) "")) := by
  refine ⟨?_, ?_, ?_⟩
  · intro h
    have hlen : m.connected_devices.length = 0 := by
      rw [length_connected_devices, h, Finset.card_empty]
    have hnil : m.connected_devices = [] := List.length_eq_zero.mp hlen
    unfold BluetoothMod.view_text
    rw [hnil]
    exact hic
  · intro d h
    have hlen : m.connected_devices.length = 1 := by
      rw [length_connected_devices, h, Finset.card_singleton]
    obtain ⟨x, hx⟩ := List.length_eq_one.mp hlen
    have hxd : x = d := by
      have hmem : x ∈ m.union_devices := by
        rw [← toFinset_connected_devices m, List.mem_toFinset, hx]
        exact List.mem_singleton_self x
      rw [h] at hmem
      exact Finset.mem_singleton.mp hmem
    unfold BluetoothMod.view_text
    rw [hx, hxd]
    rfl
  · intro h2
    refine ⟨m.connected_devices, nodup_connected_devices m,
      toFinset_connected_devices m, ?_⟩
    have hlen : 2 ≤ m.connected_devices.length := by
      rw [length_connected_devices]
      exact h2
    unfold BluetoothMod.view_text
    rcases hcd : m.connected_devices with _ | ⟨a, _ | ⟨b, t⟩⟩
    · rw [hcd] at hlen
      simp at hlen
    · rw [hcd] at hlen
      simp at hlen
    · rfl

/-- Witness for C1 at a one-device state: the hypotheses hold and the
rendered text is the device icon, a space and the name. -/
theorem view_text_selected_by_connected_count_witness :
    mod_w.icon = some glyph_bt_on ∧ mod_w.union_devices = {device_w} ∧
    mod_w.view_text = some (glyph_headphones ++ " " ++ "Headset") :=
  ⟨rfl, by decide,
    (view_text_selected_by_connected_count mod_w glyph_bt_on rfl).2.1 device_w (by decide)⟩

theorem lookup_typed_isSome {Val : Nat → Type} (t : Nat)
    (l : List ((s : Nat) × Val s)) :
    (lookup_typed t l).isSome ↔ ∃ entry ∈ l, entry.1 = t := by
  induction l with
  | nil => simp [lookup_typed]
  | cons entry rest ih =>
    simp only [lookup_typed]
    by_cases h : entry.1 = t
    · rw [dif_pos h]
      constructor
      · intro _
        exact ⟨entry, List.mem_cons_self entry rest, h⟩
      · intro _
        rfl
    · rw [dif_neg h, ih]
      constructor
      · rintro ⟨en, hen, het⟩
        exact ⟨en, List.mem_cons_of_mem entry hen, het⟩
      · rintro ⟨en, hen, het⟩
        rcases List.mem_cons.mp hen with heq | hen2
        · exact absurd (heq ▸ het) h
        · exact ⟨en, hen2, het⟩

/-- Claim C2: `Registry::get_module_mut::<T>()` is `some` exactly when a
module of type `T` is registered; in particular, when `T` was never
registered it returns `none` — a total function, never a panic. -/
theorem get_module_mut_total {Val : Nat → Type} (reg : Registry Val) (t : Nat) :
    ((reg.get_module_mut t).isSome ↔ ∃ entry ∈ reg.modules, entry.1 = t) ∧
    ((∀ entry ∈ reg.modules, entry.1 ≠ t) → reg.get_module_mut t = none) := by
  constructor
  · exact lookup_typed_isSome t reg.modules
  · intro h
    have hs : ¬(reg.get_module_mut t).isSome := by
      rw [Registry.get_module_mut, lookup_typed_isSome t reg.modules]
      rintro ⟨entry, hen, het⟩
      exact h entry hen het
    exact Option.not_isSome_iff_eq_none.mp hs

/-- Witness for C2: in an empty registry over any value family, the
accessor returns `none`. -/
theorem get_module_mut_total_witness :
    @Registry.get_module_mut (fun _ => Unit) ⟨[]⟩ 0 = none :=
  (@get_module_mut_total (fun _ => Unit) ⟨[]⟩ 0).2
    (fun entry hen => absurd hen (List.not_mem_nil entry))

/-- Claim C5: when establishing the bus session fails, the subscription
emits no Message and never aborts or retries, no matter how long it is
observed; it enters the polling loop exactly when establishment
succeeds. -/
theorem subscription_session_failure (e : IoErr) (sess : Nat → Session)
    (fuel : Nat) :
    subscription_run (.error e) fuel = ([], none) ∧
    subscription_run (.ok sess) fuel = poll_loop sess 0 fuel :=
  ⟨rfl, rfl⟩

/-- Claim C7: `OnClickAction::event` returns the stored left, center or
right slot exactly on a released left, middle or right mouse button, and
`none` on every other event. -/
theorem on_click_event_spec (a : OnClickAction) (e : Event) :
    (∀ act : Action, a.event e = some act ↔
      (e = .mouse (.buttonReleased .left) ∧ a.left = some act) ∨
      (e = .mouse (.buttonReleased .middle) ∧ a.center = some act) ∨
      (e = .mouse (.buttonReleased .right) ∧ a.right = some act)) ∧
    ((e ≠ .mouse (.buttonReleased .left) ∧ e ≠ .mouse (.buttonReleased .middle) ∧
      e ≠ .mouse (.buttonReleased .right)) → a.event e = none) := by
  cases e with
  | mouse me =>
    cases me with
    | cursorEntered => simp [OnClickAction.event]
    | cursorLeft => simp [OnClickAction.event]
    | cursorMoved p => simp [OnClickAction.event]
    | buttonPressed b => simp [OnClickAction.event]
    | buttonReleased b => cases b <;> simp [OnClickAction.event]
    | wheelScrolled d => simp [OnClickAction.event]
  | keyboard p => simp [OnClickAction.event]
  | window p => simp [OnClickAction.event]
  | touch p => simp [OnClickAction.event]

/-- Witness for C7: the left slot fires on a released left button, and a
keyboard event is unhandled. -/
theorem on_click_event_spec_witness :
    on_click_w.event (.mouse (.buttonReleased .left)) = some act_w ∧
    on_click_w.event (.keyboard 0) = none :=
  ⟨((on_click_event_spec on_click_w (.mouse (.buttonReleased .left))).1 act_w).mpr
      (Or.inl ⟨rfl, rfl⟩),
    (on_click_event_spec on_click_w (.keyboard 0)).2
      ⟨by decide, by decide, by decide⟩⟩

/-- Claim C8: the default `Module::popup_view` returns the text element
"Missing implementation" for every config and template — it signals a
missing popup instead of panicking or erroring. -/
theorem popup_view_default_total (config : PopupConfig) (template : Handlebars) :
    popup_view_default config template = Element.text "Missing implementation" :=
  rfl

/-- Claim C9: every module state reachable from `BluetoothMod::default`
via `read_config` and Message-driven controller replacement keeps the icon
map of the default — entries for both `true` and `false` — so
`BluetoothMod::icon` never reaches its `expect` failure. -/
theorem reachable_icon_total {C P : Type} (c0 : C) (p0 : P)
    (m : BluetoothMod C P) (h : BluetoothMod.Reachable c0 p0 m) :
    m.icons = default_icons ∧ (map_get m.icons true).isSome ∧
    (map_get m.icons false).isSome ∧ m.icon.isSome := by
  have hicons : m.icons = default_icons := by
    induction h with
    | init => rfl
    | cfg to_cfg upd_popup config popup_config hm ih => exact ih
    | upd cs hm ih => exact ih
  refine ⟨hicons, ?_, ?_, ?_⟩
  · rw [hicons]
    rfl
  · rw [hicons]
    rfl
  · unfold BluetoothMod.icon
    rw [hicons]
    cases m.controllers.any Controller.is_powered <;> rfl

/-- Witness for C9 at the default state. -/
theorem reachable_icon_total_witness :
    (BluetoothMod.mk_default () () : BluetoothMod Unit Unit).icons = default_icons ∧
    (map_get (BluetoothMod.mk_default () () : BluetoothMod Unit Unit).icons true).isSome ∧
    (map_get (BluetoothMod.mk_default () () : BluetoothMod Unit Unit).icons false).isSome ∧
    (BluetoothMod.mk_default () () : BluetoothMod Unit Unit).icon.isSome :=
  reachable_icon_total () () _ BluetoothMod.Reachable.init

/-- The class strings the table recognizes. -/
def recognized_classes : List String :=
  ["audio-card", "audio-input-microphone", "audio-headphones", "audio-headset",
   "battery", "camera-photo", "computer", "input-keyboard", "input-mouse",
   "input-gaming", "phone", "None"]

/-- The fixed glyphs the table can produce. -/
def glyph_table : List String :=
  [glyph_audio_card, glyph_microphone, glyph_headphones, glyph_battery,
   glyph_camera, glyph_computer, glyph_keyboard, glyph_mouse, glyph_gaming,
   glyph_phone, glyph_none_class, glyph_unknown_class]

set_option maxHeartbeats 1000000 in
/-- Claim C10: icon classification in `get_all_devices` is total — an
absent class is treated as "None" and mapped to its fixed glyph, every
unrecognized class string maps to the fixed fallback glyph, and every
input lands in the fixed glyph table. -/
theorem classify_icon_total :
    classify_icon none = glyph_none_class ∧
    (∀ s : String, s ∉ recognized_classes → icon_for_class s = glyph_unknown_class) ∧
    (∀ o : Option String, classify_icon o ∈ glyph_table) := by
  refine ⟨rfl, ?_, ?_⟩
  · intro s hs
    simp only [recognized_classes, List.mem_cons, List.not_mem_nil, or_false,
      not_or] at hs
    obtain ⟨h1, h2, h3, h4, h5, h6, h7, h8, h9, h10, h11, h12⟩ := hs
    simp [icon_for_class, h1, h2, h3, h4, h5, h6, h7, h8, h9, h10, h11, h12]
  · intro o
    cases o with
    | none => decide
    | some s =>
      show icon_for_class s ∈ glyph_table
      unfold icon_for_class
      split_ifs <;> decide

/-- Witness for C10: "printer" is not a recognized class and maps to the
fallback glyph. -/
theorem classify_icon_total_witness :
    "printer" ∉ recognized_classes ∧
    icon_for_class "printer" = glyph_unknown_class :=
  ⟨by decide, classify_icon_total.2.1 "printer" (by decide)⟩

theorem process_adapters_fail (s : Session) (nm : String) (rest : List String)
    (a : Adapter) (e : IoErr) (acc : List Controller)
    (ha : s.adapter nm = .ok a) (hf : first_query_fails a e) :
    process_adapters s (nm :: rest) acc = .error e := by
  simp only [process_adapters, ha]
  rcases hf with hp | ⟨b, hb, hd⟩
  · rw [hp]
  · rw [hb, hd]

theorem process_adapters_ok_cons (s : Session) (nm : String) (rest : List String)
    (acc : List Controller) (h : adapter_ok s nm) :
    ∃ c, process_adapters s (nm :: rest) acc = process_adapters s rest (acc ++ [c]) := by
  obtain ⟨a, ha, ⟨b, hb⟩, ⟨cs, hcs⟩⟩ := h
  refine ⟨⟨b, cs⟩, ?_⟩
  simp only [process_adapters, ha, hb, hcs]

theorem process_adapters_prefix (s : Session) (pre : List String) :
    ∀ (suf : List String) (acc : List Controller), (∀ n ∈ pre, adapter_ok s n) →
    ∃ acc2, process_adapters s (pre ++ suf) acc = process_adapters s suf acc2 := by
  induction pre with
  | nil => intro suf acc _; exact ⟨acc, rfl⟩
  | cons nm rest ih =>
    intro suf acc h
    obtain ⟨c, hc⟩ := process_adapters_ok_cons s nm (rest ++ suf) acc
      (h nm (List.mem_cons_self nm rest))
    obtain ⟨acc2, hacc⟩ := ih suf (acc ++ [c])
      (fun n hn => h n (List.mem_cons_of_mem nm hn))
    refine ⟨acc2, ?_⟩
    rw [List.cons_append, hc, hacc]

theorem get_controllers_fail (s : Session) (pre : List String) (nm : String)
    (suf : List String) (a : Adapter) (e : IoErr)
    (hnames : s.adapter_names = .ok (pre ++ nm :: suf))
    (hpre : ∀ n ∈ pre, adapter_ok s n)
    (ha : s.adapter nm = .ok a)
    (hf : first_query_fails a e) :
    get_controllers s = .error e := by
  obtain ⟨acc2, hacc⟩ := process_adapters_prefix s pre (nm :: suf) [] hpre
  simp only [get_controllers, hnames]
  rw [hacc]
  exact process_adapters_fail s nm suf a e acc2 ha hf

theorem poll_loop_abort (sess : Nat → Session) (e : IoErr) :
    ∀ (k start fuel : Nat), (∀ j, j < k → cycle_ok (sess (start + j))) →
    get_controllers (sess (start + k)) = .error e → k < fuel →
    (poll_loop sess start fuel).2 = some e ∧
      (poll_loop sess start fuel).1.length = k := by
  intro k
  induction k with
  | zero =>
    intro start fuel _ hfail hlt
    cases fuel with
    | zero => omega
    | succ f =>
      rw [Nat.add_zero] at hfail
      refine ⟨?_, ?_⟩ <;> simp [poll_loop, hfail]
  | succ k ih =>
    intro start fuel h hfail hlt
    cases fuel with
    | zero => omega
    | succ f =>
      obtain ⟨cs, hcs⟩ := h 0 (Nat.succ_pos k)
      rw [Nat.add_zero] at hcs
      simp only [poll_loop, hcs]
      have h2 : ∀ j, j < k → cycle_ok (sess (start + 1 + j)) := by
        intro j hj
        have hh := h (j + 1) (by omega)
        have heq : start + (j + 1) = start + 1 + j := by omega
        rwa [heq] at hh
      have hfail2 : get_controllers (sess (start + 1 + k)) = .error e := by
        have heq : start + (k + 1) = start + 1 + k := by omega
        rwa [heq] at hfail
      obtain ⟨ha, hb⟩ := ih (start + 1) f h2 hfail2 (by omega)
      exact ⟨ha, by simp [hb]⟩

/-- Claim C3: a failing awaited adapter or device query makes
`get_controllers` return that error — it does not skip the failing adapter
and continue — and the subscription loop, which `unwrap`s the result,
aborts at that cycle instead of continuing to the next one: it has emitted
exactly the earlier cycles' snapshots. -/
theorem poll_error_aborts_loop (s : Session) (pre : List String) (nm : String)
    (suf : List String) (a : Adapter) (e : IoErr)
    (hnames : s.adapter_names = .ok (pre ++ nm :: suf))
    (hpre : ∀ n ∈ pre, adapter_ok s n)
    (ha : s.adapter nm = .ok a)
    (hf : first_query_fails a e) :
    get_controllers s = .error e ∧
    ∀ (sess : Nat → Session) (k fuel : Nat),
      sess k = s → (∀ j, j < k → cycle_ok (sess j)) → k < fuel →
      (poll_loop sess 0 fuel).2 = some e ∧
        (poll_loop sess 0 fuel).1.length = k := by
  have hgc : get_controllers s = .error e :=
    get_controllers_fail s pre nm suf a e hnames hpre ha hf
  refine ⟨hgc, ?_⟩
  intro sess k fuel hk hok hlt
  have h1 : ∀ j, j < k → cycle_ok (sess (0 + j)) := by
    intro j hj
    rw [Nat.zero_add]
    exact hok j hj
  have h2 : get_controllers (sess (0 + k)) = .error e := by
    rw [Nat.zero_add, hk]
    exact hgc
  exact poll_loop_abort sess e k 0 fuel h1 h2 hlt

/-- Witness for C3: a session whose only adapter fails its `is_powered`
query; `get_controllers` surfaces the error and the loop aborts on its
first cycle with no Message emitted. -/
theorem poll_error_aborts_loop_witness :
    get_controllers session_fail_w = .error ⟨7⟩ ∧
    (poll_loop (fun _ => session_fail_w) 0 1).2 = some ⟨7⟩ ∧
    (poll_loop (fun _ => session_fail_w) 0 1).1.length = 0 := by
  have h := poll_error_aborts_loop session_fail_w [] "hci0" [] adapter_fail_w ⟨7⟩
    rfl (fun n hn => absurd hn (List.not_mem_nil n)) rfl (Or.inl rfl)
  have h2 := h.2 (fun _ => session_fail_w) 0 1 rfl
    (fun j hj => absurd hj (Nat.not_lt_zero j)) Nat.zero_lt_one
  exact ⟨h.1, h2.1, h2.2⟩

theorem process_devices_nodup (a : Adapter) (addrs : List Nat) :
    ∀ (acc cs : List Device), acc.Nodup → process_devices a addrs acc = .ok cs →
    cs.Nodup := by
  induction addrs with
  | nil =>
    intro acc cs h heq
    simp only [process_devices] at heq
    cases heq
    exact h
  | cons addr rest ih =>
    intro acc cs h heq
    cases hd : a.device addr with
    | error e =>
      simp only [process_devices, hd] at heq
      exact Except.noConfusion heq
    | ok d =>
      simp only [process_devices, hd] at heq
      cases hic : d.icon with
      | error e =>
        simp only [hic] at heq
        exact Except.noConfusion heq
      | ok ic =>
        simp only [hic] at heq
        cases hconn : d.is_connected with
        | error e =>
          simp only [hconn] at heq
          exact Except.noConfusion heq
        | ok conn =>
          simp only [hconn] at heq
          cases conn with
          | false => exact ih _ _ h heq
          | true =>
            cases hal : d.device_alias with
            | error e =>
              simp only [hal] at heq
              exact Except.noConfusion heq
            | ok nm =>
              simp only [hal] at heq
              exact ih _ _ (nodup_hs_insert _ _ h) heq

theorem process_devices_sub (a : Adapter) (addrs : List Nat) :
    ∀ (acc cs : List Device) (x : Device), process_devices a addrs acc = .ok cs →
    x ∈ acc → x ∈ cs := by
  induction addrs with
  | nil =>
    intro acc cs x heq hx
    simp only [process_devices] at heq
    cases heq
    exact hx
  | cons addr rest ih =>
    intro acc cs x heq hx
    cases hd : a.device addr with
    | error e =>
      simp only [process_devices, hd] at heq
      exact Except.noConfusion heq
    | ok d =>
      simp only [process_devices, hd] at heq
      cases hic : d.icon with
      | error e =>
        simp only [hic] at heq
        exact Except.noConfusion heq
      | ok ic =>
        simp only [hic] at heq
        cases hconn : d.is_connected with
        | error e =>
          simp only [hconn] at heq
          exact Except.noConfusion heq
        | ok conn =>
          simp only [hconn] at heq
          cases conn with
          | false => exact ih _ _ x heq hx
          | true =>
            cases hal : d.device_alias with
            | error e =>
              simp only [hal] at heq
              exact Except.noConfusion heq
            | ok nm =>
              simp only [hal] at heq
              exact ih _ _ x heq ((mem_hs_insert _ _ x).mpr (Or.inl hx))

theorem process_devices_mem (a : Adapter) (addrs : List Nat) :
    ∀ (acc cs : List Device) (addr : Nat) (d : Device),
    process_devices a addrs acc = .ok cs → addr ∈ addrs → reported a addr d →
    d ∈ cs := by
  induction addrs with
  | nil =>
    intro acc cs addr d _ hmem _
    exact absurd hmem (List.not_mem_nil addr)
  | cons addr2 rest ih =>
    intro acc cs addr d heq hmem hrep
    rcases List.mem_cons.mp hmem with heqaddr | hmem2
    · subst heqaddr
      obtain ⟨dh, ic, nm, hdev, hicq, hconnq, halq, hdval⟩ := hrep
      simp only [process_devices, hdev, hicq, hconnq, halq] at heq
      have hmem3 : d ∈ hs_insert acc ⟨classify_icon ic, nm⟩ :=
        (mem_hs_insert _ _ d).mpr (Or.inr hdval)
      exact process_devices_sub a rest _ cs d heq hmem3
    · cases hd : a.device addr2 with
      | error e =>
        simp only [process_devices, hd] at heq
        exact Except.noConfusion heq
      | ok d2 =>
        simp only [process_devices, hd] at heq
        cases hic : d2.icon with
        | error e =>
          simp only [hic] at heq
          exact Except.noConfusion heq
        | ok ic =>
          simp only [hic] at heq
          cases hconn : d2.is_connected with
          | error e =>
            simp only [hconn] at heq
            exact Except.noConfusion heq
          | ok conn =>
            simp only [hconn] at heq
            cases conn with
            | false => exact ih _ _ addr d heq hmem2 hrep
            | true =>
              cases hal : d2.device_alias with
              | error e =>
                simp only [hal] at heq
                exact Except.noConfusion heq
              | ok nm =>
                simp only [hal] at heq
                exact ih _ _ addr d heq hmem2 hrep

theorem process_adapters_sub (s : Session) (names : List String) :
    ∀ (acc cs : List Controller) (c : Controller),
    process_adapters s names acc = .ok cs → c ∈ acc → c ∈ cs := by
  induction names with
  | nil =>
    intro acc cs c heq hc
    simp only [process_adapters] at heq
    cases heq
    exact hc
  | cons nm rest ih =>
    intro acc cs c heq hc
    cases hd : s.adapter nm with
    | error e =>
      simp only [process_adapters, hd] at heq
      exact ih _ _ c heq hc
    | ok a =>
      simp only [process_adapters, hd] at heq
      cases hp : a.is_powered with
      | error e =>
        simp only [hp] at heq
        exact Except.noConfusion heq
      | ok p =>
        simp only [hp] at heq
        cases hga : get_all_devices a with
        | error e =>
          simp only [hga] at heq
          exact Except.noConfusion heq
        | ok ds =>
          simp only [hga] at heq
          exact ih _ _ c heq (List.mem_append_left _ hc)

theorem process_adapters_reported_mem (s : Session) (names : List String) :
    ∀ (acc ctrls : List Controller) (nm : String) (a : Adapter)
    (addrs : List Nat) (addr : Nat) (d : Device),
    process_adapters s names acc = .ok ctrls → nm ∈ names →
    s.adapter nm = .ok a → a.device_addresses = .ok addrs → addr ∈ addrs →
    reported a addr d → ∃ c ∈ ctrls, d ∈ c.connected_devices := by
  induction names with
  | nil =>
    intro acc ctrls nm a addrs addr d _ hmem _ _ _ _
    exact absurd hmem (List.not_mem_nil nm)
  | cons nm2 rest ih =>
    intro acc ctrls nm a addrs addr d heq hmem ha haddrs haddr hrep
    rcases List.mem_cons.mp hmem with heqnm | hmem2
    · subst heqnm
      simp only [process_adapters, ha] at heq
      cases hp : a.is_powered with
      | error e =>
        simp only [hp] at heq
        exact Except.noConfusion heq
      | ok p =>
        simp only [hp] at heq
        cases hga : get_all_devices a with
        | error e =>
          simp only [hga] at heq
          exact Except.noConfusion heq
        | ok ds =>
          simp only [hga] at heq
          have hds : process_devices a addrs [] = .ok ds := by
            rw [get_all_devices] at hga
            simp only [haddrs] at hga
            exact hga
          have hdds : d ∈ ds := process_devices_mem a addrs [] ds addr d hds haddr hrep
          have hctrl : (⟨p, ds⟩ : Controller) ∈ acc ++ [⟨p, ds⟩] :=
            List.mem_append_right _ (List.mem_singleton_self _)
          exact ⟨⟨p, ds⟩, process_adapters_sub s rest _ ctrls _ heq hctrl, hdds⟩
    · cases hd : s.adapter nm2 with
      | error e =>
        simp only [process_adapters, hd] at heq
        exact ih _ _ nm a addrs addr d heq hmem2 ha haddrs haddr hrep
      | ok a2 =>
        simp only [process_adapters, hd] at heq
        cases hp : a2.is_powered with
        | error e =>
          simp only [hp] at heq
          exact Except.noConfusion heq
        | ok p =>
          simp only [hp] at heq
          cases hga : get_all_devices a2 with
          | error e =>
            simp only [hga] at heq
            exact Except.noConfusion heq
          | ok ds =>
            simp only [hga] at heq
            exact ih _ _ nm a addrs addr d heq hmem2 ha haddrs haddr hrep

/-- Claim C4: device identity is structural equality of icon and name.
Within one poll cycle, the connected-device set produced by
`get_all_devices` holds exactly one entry for a pair of devices reported
with equal icon and name at different bus addresses, and so does the union
computed by `connected_devices` once the cycle's snapshot is installed —
even when the two reports came from different adapters. -/
theorem poll_cycle_dedup :
    (∀ (a : Adapter) (cs : List Device), get_all_devices a = .ok cs →
      cs.Nodup ∧
      ∀ (addrs : List Nat) (addr1 addr2 : Nat) (d : Device),
        a.device_addresses = .ok addrs → addr1 ∈ addrs → addr2 ∈ addrs →
        reported a addr1 d → reported a addr2 d →
        d ∈ cs ∧ cs.count d = 1) ∧
    (∀ (C P : Type) (m : BluetoothMod C P) (s : Session)
      (ctrls : List Controller) (names : List String) (nm1 nm2 : String)
      (a1 a2 : Adapter) (addrs1 addrs2 : List Nat) (addr1 addr2 : Nat)
      (d : Device),
      get_controllers s = .ok ctrls →
      s.adapter_names = .ok names → nm1 ∈ names → nm2 ∈ names →
      s.adapter nm1 = .ok a1 → s.adapter nm2 = .ok a2 →
      a1.device_addresses = .ok addrs1 → a2.device_addresses = .ok addrs2 →
      addr1 ∈ addrs1 → addr2 ∈ addrs2 →
      reported a1 addr1 d → reported a2 addr2 d →
      (BluetoothMod.bt_update ctrls m).connected_devices.Nodup ∧
      d ∈ (BluetoothMod.bt_update ctrls m).connected_devices ∧
      (BluetoothMod.bt_update ctrls m).connected_devices.count d = 1) := by
  constructor
  · intro a cs h
    cases haddrs : a.device_addresses with
    | error e =>
      rw [get_all_devices, haddrs] at h
      exact Except.noConfusion h
    | ok addrs0 =>
      rw [get_all_devices] at h
      simp only [haddrs] at h
      have hnd : cs.Nodup := process_devices_nodup a addrs0 [] cs List.nodup_nil h
      refine ⟨hnd, ?_⟩
      intro addrs addr1 addr2 d haddrs2 h1 h2 hr1 hr2
      injection haddrs2 with hh
      subst hh
      have hmem : d ∈ cs := process_devices_mem a addrs0 [] cs addr1 d h h1 hr1
      exact ⟨hmem, List.count_eq_one_of_mem hnd hmem⟩
  · intro C P m s ctrls names nm1 nm2 a1 a2 addrs1 addrs2 addr1 addr2 d
      hgc hnames hn1 hn2 ha1 ha2 haddrs1 haddrs2 hm1 hm2 hr1 hr2
    have hnd := nodup_connected_devices (BluetoothMod.bt_update ctrls m)
    have hpa : process_adapters s names [] = .ok ctrls := by
      rw [get_controllers] at hgc
      simp only [hnames] at hgc
      exact hgc
    obtain ⟨c, hc, hdc⟩ := process_adapters_reported_mem s names [] ctrls nm1 a1
      addrs1 addr1 d hpa hn1 ha1 haddrs1 hm1 hr1
    have hdm : d ∈ (BluetoothMod.bt_update ctrls m).connected_devices :=
      (mem_connected_devices _ d).mpr ⟨c, hc, hdc⟩
    exact ⟨hnd, hdm, List.count_eq_one_of_mem hnd hdm⟩

/-- Witness for C4: the same phone (equal classified icon and alias) is
reported at addresses 10 and 11 of one adapter and at address 20 of a
second adapter; the one-adapter set and the post-cycle union each hold it
exactly once. -/
theorem poll_cycle_dedup_witness :
    get_all_devices adapter_w = .ok dev_list_w ∧
    dev_list_w.count (Device.mk glyph_phone "Pixel") = 1 ∧
    get_controllers session_two_w = .ok controllers_two_w ∧
    Device.mk glyph_phone "Pixel" ∈
      (BluetoothMod.bt_update controllers_two_w mod_w).connected_devices ∧
    (BluetoothMod.bt_update controllers_two_w mod_w).connected_devices.count
      (Device.mk glyph_phone "Pixel") = 1 := by
  have h1 := poll_cycle_dedup.1 adapter_w dev_list_w rfl
  have h1b := h1.2 [10, 11] 10 11 (Device.mk glyph_phone "Pixel") rfl (by decide)
    (by decide) ⟨handle_w, some "phone", "Pixel", rfl, rfl, rfl, rfl, rfl⟩
    ⟨handle_w, some "phone", "Pixel", rfl, rfl, rfl, rfl, rfl⟩
  have h2 := poll_cycle_dedup.2 Unit Unit mod_w session_two_w controllers_two_w
    ["hci0", "hci1"] "hci0" "hci1" adapter_w adapter_w2 [10, 11] [20] 10 20
    (Device.mk glyph_phone "Pixel") rfl rfl (by decide) (by decide) rfl rfl rfl rfl
    (by decide) (by decide)
    ⟨handle_w, some "phone", "Pixel", rfl, rfl, rfl, rfl, rfl⟩
    ⟨handle_w, some "phone", "Pixel", rfl, rfl, rfl, rfl, rfl⟩
  exact ⟨rfl, h1b.2, rfl, h2.2.1, h2.2.2⟩

theorem poll_loop_all_ok (sess : Nat → Session) :
    ∀ (fuel start : Nat) (snap : Nat → List Controller),
    (∀ j, j < fuel → get_controllers (sess (start + j)) = .ok (snap j)) →
    poll_loop sess start fuel = ((List.range fuel).map snap, none) := by
  intro fuel
  induction fuel with
  | zero => intro start snap _; rfl
  | succ f ih =>
    intro start snap h
    have h0 : get_controllers (sess start) = .ok (snap 0) := by
      have hh := h 0 (Nat.succ_pos f)
      rwa [Nat.add_zero] at hh
    have hrest : ∀ j, j < f → get_controllers (sess (start + 1 + j)) = .ok (snap (j + 1)) := by
      intro j hj
      have hh := h (j + 1) (by omega)
      have heq : start + (j + 1) = start + 1 + j := by omega
      rwa [heq] at hh
    have hres := ih (start + 1) (fun j => snap (j + 1)) hrest
    simp only [poll_loop, h0, hres]
    rw [List.range_succ_eq_map]
    simp [List.map_map, Function.comp, Nat.succ_eq_add_one]

/-- Claim C6: the Message each poll cycle emits replaces the module's
whole `controllers` vector with the polled snapshot — no merging with the
previous value — and leaves `cfg_override`, `popup_cfg_override` and
`icons` unchanged; over any run of successful cycles the emitted snapshots
are exactly the successive `get_controllers` results. -/
theorem message_replaces_controllers {C P : Type} (cs : List Controller)
    (m : BluetoothMod C P) (sess : Nat → Session) (start fuel : Nat)
    (snap : Nat → List Controller) :
    (BluetoothMod.bt_update cs m).controllers = cs ∧
    (BluetoothMod.bt_update cs m).cfg_override = m.cfg_override ∧
    (BluetoothMod.bt_update cs m).popup_cfg_override = m.popup_cfg_override ∧
    (BluetoothMod.bt_update cs m).icons = m.icons ∧
    ((∀ j, j < fuel → get_controllers (sess (start + j)) = .ok (snap j)) →
      poll_loop sess start fuel = ((List.range fuel).map snap, none)) :=
  ⟨rfl, rfl, rfl, rfl, poll_loop_all_ok sess fuel start snap⟩

/-- Witness for C6: replacing the one-device state's controllers with the
snapshot polled from `session_ok_w`, whose single observed cycle emits
exactly that snapshot. -/
theorem message_replaces_controllers_witness :
    (BluetoothMod.bt_update controllers_ok_w mod_w).controllers = controllers_ok_w ∧
    (BluetoothMod.bt_update controllers_ok_w mod_w).icons = mod_w.icons ∧
    poll_loop (fun _ => session_ok_w) 0 1 = ([controllers_ok_w], none) := by
  have h := message_replaces_controllers controllers_ok_w mod_w
    (fun _ => session_ok_w) 0 1 (fun _ => controllers_ok_w)
  have h2 := h.2.2.2.2 (fun j _ => rfl)
  rw [h2]
  exact ⟨h.1, h.2.2.2.1, rfl⟩

end BarRs
